import Mathlib


/-! ## Particles — `src/effects/particles.py` -/

/-- Source `Particle.__init__` fields (particles.py lines 26–36): position, color,
velocity, size, lifetime, age (starts 0), gravity and fade flags. -/
structure Particle where
  x : ℚ
  y : ℚ
  color : ℕ × ℕ × ℕ
  vx : ℚ
  vy : ℚ
  size : ℚ
  lifetime : ℚ
  age : ℚ
  gravity : Bool
  fade : Bool
deriving DecidableEq

/-- Source `Particle.update(dt)` (particles.py lines 37–59): position advances by the
old velocity, gravity (if set) adds `50*dt` to `vy`, age increases by `dt`.
The particle is alive afterwards iff `age < lifetime`. -/
def Particle.update (p : Particle) (dt : ℚ) : Particle :=
  { p with
    x := p.x + p.vx * dt
    y := p.y + p.vy * dt
    vy := if p.gravity then p.vy + 50 * dt else p.vy
    age := p.age + dt }

/-- Source `ParticleSystem.__init__` (particles.py lines 96–104): a capacity and an
initially empty ordered list of particles. -/
structure ParticleSystem where
  max_particles : ℕ
  particles : List Particle
deriving DecidableEq

/-- A freshly constructed `ParticleSystem(max_particles)`. -/
def ParticleSystem.init (m : ℕ) : ParticleSystem :=
  ⟨m, []⟩

/-- Source `ParticleSystem.add_particle` (particles.py lines 106–112): the particle is
appended only when the current count is strictly below `max_particles`;
otherwise the call does nothing (the new particle is dropped). -/
def ParticleSystem.add_particle (ps : ParticleSystem) (p : Particle) : ParticleSystem :=
  if ps.particles.length < ps.max_particles then
    { ps with particles := ps.particles ++ [p] }
  else
    ps

/-- Source `ParticleSystem.emit_particles` (particles.py lines 114–159): creates
`count` randomly sampled particles and feeds each to `add_particle` in turn.
The random sampling is factored out: the already-sampled particles are the
`news` parameter. -/
def ParticleSystem.emit_particles (ps : ParticleSystem) (news : List Particle) : ParticleSystem :=
  news.foldl ParticleSystem.add_particle ps

/-- Source `ParticleSystem.update(dt)` (particles.py lines 161–168): every particle is
updated, and exactly those that are still alive (`age < lifetime`) are kept,
in order. -/
def ParticleSystem.update (ps : ParticleSystem) (dt : ℚ) : ParticleSystem :=
  { ps with
    particles := ps.particles.filterMap (fun p =>
      let p' := p.update dt
      if p'.age < p'.lifetime then some p' else none) }

/-- One externally visible operation on a `ParticleSystem`. -/
inductive PSOp where
  | emit : List Particle → PSOp
  | update : ℚ → PSOp

/-- Apply one operation. -/
def PSOp.apply (ps : ParticleSystem) : PSOp → ParticleSystem
  | .emit news => ps.emit_particles news
  | .update dt => ps.update dt

/-- Run a sequence of operations. -/
def ParticleSystem.run (ps : ParticleSystem) (ops : List PSOp) : ParticleSystem :=
  ops.foldl PSOp.apply ps

/-- Two concrete particles used in concrete instances below. -/
def particleA : Particle :=
  ⟨0, 0, (255, 255, 255), 0, 0, 2, 1, 0, false, true⟩

/-- A second concrete particle, distinct from `particleA`. -/
def particleB : Particle :=
  ⟨7, 3, (255, 0, 0), 1, 1, 2, 1, 0, false, true⟩

/-! ## Constants — `src/constants.py` -/

/-- Source `PLAYER_MAX_HEALTH = 100` (constants.py line 14). -/
def PLAYER_MAX_HEALTH : ℤ := 100

/-- Source `FADE_DURATION = 1.0` seconds (constants.py line 117). -/
def FADE_DURATION : ℚ := 1

/-- Source `STATE_MENU = 0` (constants.py line 130). -/
def STATE_MENU : ℕ := 0

/-- Source `STATE_GAME_OVER = 3` (constants.py line 133). -/
def STATE_GAME_OVER : ℕ := 3

/-- Source `POWERUP_BOOM_EFFECT_RADIUS_FACTOR = 0.7` (constants.py line 234). -/
def POWERUP_BOOM_EFFECT_RADIUS_FACTOR : ℚ := 7 / 10

/-- Source `POWERUP_BOOM_FLASH_DURATION = 0.5` seconds (constants.py line 236). -/
def POWERUP_BOOM_FLASH_DURATION : ℚ := 1 / 2

/-! ## Player — `src/entities/player.py` -/

/-- Source `self.invulnerable_duration = 1.0` (player.py line 47), a constant set in
`Player.__init__` and never reassigned. -/
def PLAYER_INVULNERABLE_DURATION : ℚ := 1

/-- Source `self.flash_rate = 0.1` (player.py line 50), likewise a constant. -/
def PLAYER_FLASH_RATE : ℚ := 1 / 10

/-- The `Player` fields the claims are about (player.py lines 31–52):
position, velocity, collision radius, health, invulnerability state and the
cosmetic flash state. -/
structure Player where
  px : ℚ
  py : ℚ
  vx : ℚ
  vy : ℚ
  radius : ℚ
  health : ℤ
  invulnerable : Bool
  invulnerable_timer : ℚ
  flash_timer : ℚ
  flash_visible : Bool
deriving DecidableEq

/-- Source `Player.take_damage(amount)` (player.py lines 205–229): no-op returning
`False` while invulnerable; otherwise subtracts `amount` from health, clamps
at 0, arms the 1-second invulnerability window and the flash state, and
returns `True`. -/
def Player.take_damage (p : Player) (amount : ℤ) : Player × Bool :=
  if p.invulnerable then
    (p, false)
  else
    let h1 := p.health - amount
    let h2 := if h1 < 0 then 0 else h1
    ({ p with
        health := h2
        invulnerable := true
        invulnerable_timer := PLAYER_INVULNERABLE_DURATION
        flash_timer := PLAYER_FLASH_RATE
        flash_visible := true }, true)

/-- The screen-boundary section of `Player.update` (player.py lines 126–149):
the position advances by `velocity * dt`, then each coordinate is clamped to
`[radius, screen - radius]`, zeroing the matching velocity component when a
clamp fires. The input/acceleration code above it (lines 62–124) only
determines the pre-clamp velocity, which is therefore taken as an arbitrary
argument here. Returns `((x, y), (vx, vy))`. -/
def Player.clampAxis (c v bound r : ℚ) : ℚ × ℚ :=
  if c < r then (r, 0)
  else if c > bound - r then (bound - r, 0)
  else (c, v)

/-- The whole movement step: integrate, then clamp each axis independently,
exactly as player.py lines 126–146 do for x (against `screen_width`) and y
(against `screen_height`). Returns `((x, y), (vx, vy))`. -/
def Player.applyMovement (px py vx vy dt sw sh r : ℚ) : (ℚ × ℚ) × (ℚ × ℚ) :=
  let xr := Player.clampAxis (px + vx * dt) vx sw r
  let yr := Player.clampAxis (py + vy * dt) vy sh r
  ((xr.1, yr.1), (xr.2, yr.2))

/-! ## Asteroid collision resolution — `src/states/game_state.py` lines 375–384 -/

/-- The per-frame asteroid-collision loop of `GameState.update` (game_state.py
lines 375–384): for each collided asteroid, if the player is not invulnerable,
`take_damage(asteroid.damage)` is called; when the applied damage drops health
to 0 the transition-out flag is set and the loop breaks. Returns the player
after the loop, the transition-out flag, and the number of `take_damage` calls
made. -/
def processAsteroidHits : Player → List ℤ → Player × Bool × ℕ
  | p, [] => (p, false, 0)
  | p, d :: rest =>
    if p.invulnerable then
      processAsteroidHits p rest
    else
      let pr := p.take_damage d
      if pr.2 then
        if pr.1.health ≤ 0 then
          (pr.1, true, 1)
        else
          let r := processAsteroidHits pr.1 rest
          (r.1, r.2.1, r.2.2 + 1)
      else
        let r := processAsteroidHits pr.1 rest
        (r.1, r.2.1, r.2.2 + 1)

/-! ## Boom area effect — `src/states/game_state.py` lines 283–316 -/

/-- The position and collision radius of a live asteroid, as used by the boom
resolution loop. -/
structure AsteroidB where
  px : ℚ
  py : ℚ
  radius : ℚ
deriving DecidableEq

/-- Squared Euclidean distance between two points. -/
def distSq (a b : ℚ × ℚ) : ℚ :=
  (a.1 - b.1) ^ 2 + (a.2 - b.2) ^ 2

/-- The hit test of game_state.py lines 291–292:
`boom_center.distance_to(asteroid.position) < explosion_radius + asteroid.radius`,
embedded as the equivalent comparison of squares (both sides are nonnegative
in the game: the explosion radius is `0.7 * min(screen)` and radii are
positive). -/
def boomHit (center : ℚ × ℚ) (radius : ℚ) (a : AsteroidB) : Bool :=
  distSq center (a.px, a.py) < (radius + a.radius) ^ 2

/-- Source `explosion_radius = min(screen_width, screen_height) * POWERUP_BOOM_EFFECT_RADIUS_FACTOR`
(game_state.py line 287). -/
def boomExplosionRadius (sw sh : ℚ) : ℚ :=
  min sw sh * POWERUP_BOOM_EFFECT_RADIUS_FACTOR

/-- The boom resolution loop of game_state.py lines 290–306: walk the live
asteroids in order; each one passing the hit test is destroyed (killed, a
particle burst emitted) and adds 50 bonus points to the score; the others
survive in order. Returns (survivors, final score, destroyed count). -/
def resolveBoom (center : ℚ × ℚ) (radius : ℚ) : List AsteroidB → ℚ → List AsteroidB × ℚ × ℕ
  | [], score => ([], score, 0)
  | a :: rest, score =>
    if boomHit center radius a then
      let r := resolveBoom center radius rest (score + 50)
      (r.1, r.2.1, r.2.2 + 1)
    else
      let r := resolveBoom center radius rest score
      (a :: r.1, r.2.1, r.2.2)

/-- Five concrete asteroids within 430 of the point (400, 300) — the boom
radius 420 for the 800×600 screen plus their own radius 10. -/
def asteroidsInside : List AsteroidB :=
  [⟨400, 300, 10⟩, ⟨500, 300, 10⟩, ⟨400, 500, 10⟩, ⟨100, 300, 10⟩, ⟨700, 300, 10⟩]

/-- Two concrete asteroids farther than 430 from (400, 300). -/
def asteroidsOutside : List AsteroidB :=
  [⟨900, 900, 10⟩, ⟨0, 900, 10⟩]

/-! ## Game state and the fade-out transition — `src/states/game_state.py` -/

/-- Python `int()` applied to a rational value: truncation toward zero
(`Int` division in Lean truncates toward zero). -/
def pyInt (q : ℚ) : ℤ :=
  q.num / (q.den : ℤ)

/-- The `GameState` fields involved in the claims: the transition bookkeeping
(game_state.py lines 96–99), the score, the entity collections, the spawn
timers (lines 100–103) and the boom-effect bookkeeping (lines 106–112). -/
structure GameState where
  transition_out : Bool
  transition_timer : ℚ
  fade_alpha : ℤ
  score : ℚ
  asteroids : List AsteroidB
  powerups : List String
  player : Player
  asteroid_spawn_timer : ℚ
  next_spawn_interval : ℚ
  powerup_spawn_timer : ℚ
  next_powerup_spawn_interval : ℚ
  boom_effect_active : Bool
  boom_center : Option (ℚ × ℚ)
  boom_flash_timer : ℚ
deriving DecidableEq

/-- The early-return branch of `GameState.update` (game_state.py lines
274–281): while `transition_out` is set, only the transition timer and the
fade alpha move, and `STATE_GAME_OVER` is returned once the timer has reached
`FADE_DURATION`. -/
def GameState.updateTransition (gs : GameState) (dt : ℚ) : GameState × Option ℕ :=
  let t := gs.transition_timer + dt
  let gs' := { gs with
    transition_timer := t
    fade_alpha := min 255 (pyInt (255 * (t / FADE_DURATION))) }
  if t ≥ FADE_DURATION then (gs', some STATE_GAME_OVER) else (gs', none)

/-- Source `GameState.update` (game_state.py lines 265–398): lines 274–281 return
early while `transition_out` is set; the remainder of the method (boom
resolution, spawning, collision, scoring) is reached only otherwise and is
abstracted as the continuation `rest`, over which the theorem quantifies
universally. -/
def GameState.update (gs : GameState) (dt : ℚ)
    (rest : GameState → ℚ → GameState × Option ℕ) : GameState × Option ℕ :=
  if gs.transition_out then gs.updateTransition dt else rest gs dt

/-! ## Weighted random choice — `src/engine/utils.py` lines 6–31 -/

/-- The accumulation loop of `weighted_random_choice` (utils.py lines 24–28):
walk the (key, weight) pairs in iteration order keeping a running total, and
return the first key whose running total satisfies `rand_val <= cumulative`.
The drawn value `u` stands for `rand_val = random.uniform(0, total)`. -/
def wrcLoop {K : Type} (u : ℚ) : ℚ → List (K × ℚ) → Option K
  | _, [] => none
  | cum, kw :: rest =>
    let c := cum + kw.2
    if u ≤ c then some kw.1 else wrcLoop u c rest

/-- Source `weighted_random_choice` (utils.py lines 6–31): run the loop from a zero
total; if it falls through (only possible when the weights sum to 0 past
`u`), return the first key, or `None` for an empty mapping (line 31). -/
def weighted_random_choice {K : Type} (l : List (K × ℚ)) (u : ℚ) : Option K :=
  match wrcLoop u 0 l with
  | some k => some k
  | none => l.head?.map Prod.fst

/-- The running totals paired with their keys: entry `i` carries the sum of
the first `i+1` weights (offset by the accumulator `cum`). -/
def cumTotals {K : Type} : ℚ → List (K × ℚ) → List (K × ℚ)
  | _, [] => []
  | cum, kw :: rest => (kw.1, cum + kw.2) :: cumTotals (cum + kw.2) rest

/-- Modelled from the spec words for §4.2 WeightedSelector: "return the first
key whose cumulative total ≥ u", walking entries in iteration order. -/
def specFirstCumGe {K : Type} (l : List (K × ℚ)) (u : ℚ) : Option K :=
  ((cumTotals 0 l).find? (fun kc => decide (u ≤ kc.2))).map Prod.fst

/-! ## Game over state — `src/states/game_over_state.py` -/

/-- Source `self.delay_threshold = 1.0` (game_over_state.py line 50). -/
def GAME_OVER_DELAY_THRESHOLD : ℚ := 1

/-- Source `self.fade_speed = 200` (game_over_state.py line 58). -/
def GAME_OVER_FADE_SPEED : ℚ := 200

/-- The `GameOverState` fields driving its behavior (game_over_state.py lines
44–58): the final score, the input-delay state and the pulsing instruction
text state. -/
structure GameOverState where
  final_score : ℚ
  allow_transition : Bool
  delay_timer : ℚ
  transition_requested : Bool
  instruction_alpha : ℚ
  fade_direction : ℚ
deriving DecidableEq

/-- Source `GameOverState.set_score` (lines 62–72), called by the host loop when the
game transitions into GameOver: stores the score and re-arms the input
delay. -/
def GameOverState.set_score (s : GameOverState) (score : ℚ) : GameOverState :=
  { s with
    final_score := score
    allow_transition := false
    delay_timer := 0
    transition_requested := false }

/-- The event kinds `GameOverState.handle_event` distinguishes: the three
input kinds of line 88–90 and everything else. -/
inductive GOEvent where
  | keyDown
  | mouseButtonDown
  | joyButtonDown
  | other
deriving DecidableEq

/-- Whether the event matches `KEYDOWN or MOUSEBUTTONDOWN or JOYBUTTONDOWN`. -/
def GOEvent.isInput : GOEvent → Bool
  | .keyDown => true
  | .mouseButtonDown => true
  | .joyButtonDown => true
  | .other => false

/-- Source `GameOverState.handle_event` (lines 74–95): ignore everything until the
delay has passed; then any key/mouse/joystick press requests the transition
and returns `STATE_MENU`. -/
def GameOverState.handle_event (s : GameOverState) (e : GOEvent) :
    GameOverState × Option ℕ :=
  if s.allow_transition = false then
    (s, none)
  else if e.isInput then
    ({ s with transition_requested := true }, some STATE_MENU)
  else
    (s, none)

/-- The delay step of `GameOverState.update` (lines 106–111): while the
transition is not yet allowed, accumulate `dt` and allow it once the timer
reaches the 1-second threshold. -/
def GameOverState.updateDelay (s : GameOverState) (dt : ℚ) : GameOverState :=
  if s.allow_transition = false then
    let t := s.delay_timer + dt
    if GAME_OVER_DELAY_THRESHOLD ≤ t then
      { s with delay_timer := t, allow_transition := true }
    else
      { s with delay_timer := t }
  else
    s

/-- The instruction-text pulsing step of `GameOverState.update` (lines
119–126): move the alpha by `fade_direction * fade_speed * dt` and bounce it
inside [100, 255]. -/
def GameOverState.updateAlpha (s : GameOverState) (dt : ℚ) : GameOverState :=
  let a := s.instruction_alpha + s.fade_direction * GAME_OVER_FADE_SPEED * dt
  if a ≤ 100 then
    { s with instruction_alpha := 100, fade_direction := 1 }
  else if 255 ≤ a then
    { s with instruction_alpha := 255, fade_direction := -1 }
  else
    { s with instruction_alpha := a }

/-- Source `GameOverState.update` (lines 97–134): delay step, cosmetic updates
(stars and particles are external, the alpha pulse is modelled), then return
`STATE_MENU` if an earlier event requested the transition. -/
def GameOverState.update (s : GameOverState) (dt : ℚ) : GameOverState × Option ℕ :=
  let s2 := (s.updateDelay dt).updateAlpha dt
  if s2.transition_requested then
    ({ s2 with transition_requested := false }, some STATE_MENU)
  else
    (s2, none)

/-- An interleaved step of the host loop while in GameOver: either a frame
update with its `dt`, or a dispatched event. -/
inductive GOStep where
  | frame : ℚ → GOStep
  | ev : GOEvent → GOStep

/-- The time a step advances the clock by. -/
def GOStep.dtOf : GOStep → ℚ
  | .frame dt => dt
  | .ev _ => 0

/-- Run one step, producing the next state and the emitted signal. -/
def GameOverState.stepResult (s : GameOverState) : GOStep → GameOverState × Option ℕ
  | .frame dt => s.update dt
  | .ev e => s.handle_event e

/-- All signals along a run are `none` (no transition fires). -/
def GameOverState.noSignalRun (s : GameOverState) : List GOStep → Prop
  | [] => True
  | st :: rest =>
    (s.stepResult st).2 = none ∧ (s.stepResult st).1.noSignalRun rest

/-- Fold a list of frame updates. -/
def GameOverState.runFrames (s : GameOverState) (dts : List ℚ) : GameOverState :=
  dts.foldl (fun s dt => (s.update dt).1) s

/-! ## Power-up activation — `src/entities/powerup.py` lines 220–243 -/

/-- Source `POWERUP_BOOM_ID = "boom"` (constants.py line 226). -/
def POWERUP_BOOM_ID : String := "boom"

/-- Source `PowerUp.activate(game_state_instance)` (powerup.py lines 220–243): the
only branch with a gameplay effect is `type_id == POWERUP_BOOM_ID`, which arms
the boom effect on the game state (flag, flash timer, center at the player's
position) and plays a sound; for every other `type_id` — the heal kinds
`health_25`, `health_50`, `health_100` that `spawn_powerup` creates included —
the method only prints and removes the sprite. No branch touches the player's
health. -/
def PowerUp.activate (type_id : String) (gs : GameState) : GameState :=
  if type_id = POWERUP_BOOM_ID then
    { gs with
      boom_effect_active := true
      boom_flash_timer := POWERUP_BOOM_FLASH_DURATION
      boom_center := some (gs.player.px, gs.player.py) }
  else
    gs

/-! ## Theorems -/

theorem ParticleSystem.add_particle_max (ps : ParticleSystem) (p : Particle) :
    (ps.add_particle p).max_particles = ps.max_particles := by
  unfold ParticleSystem.add_particle
  split <;> rfl

theorem ParticleSystem.add_particle_bound (ps : ParticleSystem) (p : Particle)
    (h : ps.particles.length ≤ ps.max_particles) :
    (ps.add_particle p).particles.length ≤ (ps.add_particle p).max_particles := by
  unfold ParticleSystem.add_particle
  split
  · next hlt => simpa using hlt
  · exact h

theorem ParticleSystem.emit_particles_max (ps : ParticleSystem) (news : List Particle) :
    (ps.emit_particles news).max_particles = ps.max_particles := by
  induction news generalizing ps with
  | nil => rfl
  | cons n rest ih =>
    show ((ps.add_particle n).emit_particles rest).max_particles = ps.max_particles
    rw [ih, ParticleSystem.add_particle_max]

theorem ParticleSystem.emit_particles_bound (ps : ParticleSystem) (news : List Particle)
    (h : ps.particles.length ≤ ps.max_particles) :
    (ps.emit_particles news).particles.length ≤ (ps.emit_particles news).max_particles := by
  induction news generalizing ps with
  | nil => exact h
  | cons n rest ih =>
    exact ih (ps.add_particle n) (ps.add_particle_bound n h)

theorem ParticleSystem.update_bound (ps : ParticleSystem) (dt : ℚ)
    (h : ps.particles.length ≤ ps.max_particles) :
    (ps.update dt).particles.length ≤ (ps.update dt).max_particles := by
  unfold ParticleSystem.update
  exact le_trans (List.length_filterMap_le _ _) h

theorem PSOp.apply_bound (ps : ParticleSystem) (op : PSOp)
    (h : ps.particles.length ≤ ps.max_particles) :
    (op.apply ps).particles.length ≤ (op.apply ps).max_particles := by
  cases op with
  | emit news => exact ps.emit_particles_bound news h
  | update dt => exact ps.update_bound dt h

theorem ParticleSystem.run_bound (ps : ParticleSystem) (ops : List PSOp)
    (h : ps.particles.length ≤ ps.max_particles) :
    (ps.run ops).particles.length ≤ (ps.run ops).max_particles := by
  induction ops generalizing ps with
  | nil => exact h
  | cons op rest ih =>
    exact ih (op.apply ps) (PSOp.apply_bound ps op h)

theorem ParticleSystem.add_particle_full (ps : ParticleSystem) (p : Particle)
    (h : ps.max_particles ≤ ps.particles.length) :
    ps.add_particle p = ps := by
  unfold ParticleSystem.add_particle
  split
  · next hlt => exact absurd hlt (not_lt.mpr h)
  · rfl

/-- C1: the claim, as stated, is false of `ParticleSystem.add_particle` /
`emit_particles`: a system with capacity 1 already holding `particleA`, on
emitting the distinct `particleB`, still holds exactly `[particleA]` — the
oldest particle is kept and the newest is dropped, not the other way round. -/
theorem C1_counterexample :
    (ParticleSystem.emit_particles ⟨1, [particleA]⟩ [particleB]).particles = [particleA]
      ∧ particleA ≠ particleB := by
  decide

/-- C1 (amended): for every ParticleSystem already holding at least capacity
(max_particles) particles, an emit call inserts nothing: each new particle is
dropped by `add_particle` and the existing (oldest) particles are kept
unchanged, so after the call the system is exactly as before. -/
theorem C1_amended_drop_newest (ps : ParticleSystem) (news : List Particle)
    (h : ps.max_particles ≤ ps.particles.length) :
    ps.emit_particles news = ps := by
  induction news with
  | nil => rfl
  | cons n rest ih =>
    show (ps.add_particle n).emit_particles rest = ps
    rw [ParticleSystem.add_particle_full ps n h, ih]

/-- Witness for `C1_amended_drop_newest` at a concrete full system. -/
theorem C1_amended_drop_newest_witness :
    ParticleSystem.emit_particles ⟨1, [particleA]⟩ [particleB, particleB]
      = (⟨1, [particleA]⟩ : ParticleSystem) :=
  C1_amended_drop_newest ⟨1, [particleA]⟩ [particleB, particleB] (by decide)

/-- C2: for every capacity `m` and every sequence of `emit_particles` and
`update` operations applied to a freshly constructed `ParticleSystem m`, the
number of live particles never exceeds `m` (and `max_particles` itself is
never mutated, so the invariant `len(particles) <= max_particles` holds after
every operation). -/
theorem C2_particle_bound (m : ℕ) (ops : List PSOp) :
    ((ParticleSystem.init m).run ops).particles.length ≤ m := by
  have hmax : ∀ ps : ParticleSystem, ∀ ops : List PSOp,
      (ps.run ops).max_particles = ps.max_particles := by
    intro ps ops
    induction ops generalizing ps with
    | nil => rfl
    | cons op rest ih =>
      show ((op.apply ps).run rest).max_particles = ps.max_particles
      rw [ih]
      cases op with
      | emit news => exact ps.emit_particles_max news
      | update dt => rfl
  have h := ParticleSystem.run_bound (ParticleSystem.init m) ops (by simp [ParticleSystem.init])
  rwa [hmax] at h

/-- C3: `take_damage` returns `False` and leaves the whole player state
unchanged while invulnerable; otherwise it sets health to
`max(0, health - amount)`, turns invulnerability on with a 1-second remaining
window, and returns `True`. -/
theorem C3_take_damage (p : Player) (amount : ℤ) :
    (p.invulnerable = true → p.take_damage amount = (p, false))
    ∧ (p.invulnerable = false →
        (p.take_damage amount).1.health = max 0 (p.health - amount)
        ∧ (p.take_damage amount).1.invulnerable = true
        ∧ (p.take_damage amount).1.invulnerable_timer = 1
        ∧ (p.take_damage amount).2 = true) := by
  constructor
  · intro h
    simp [Player.take_damage, h]
  · intro h
    refine ⟨?_, by simp [Player.take_damage, h],
      by simp [Player.take_damage, h, PLAYER_INVULNERABLE_DURATION],
      by simp [Player.take_damage, h]⟩
    simp only [Player.take_damage, h, Bool.false_eq_true, if_false]
    split_ifs with hc <;> omega

/-- Witness for `C3_take_damage`: a vulnerable player at health 30 hit for 50
ends at health 0, invulnerable, and the call reports damage applied. -/
theorem C3_take_damage_witness :
    (Player.take_damage ⟨0, 0, 0, 0, 30, 30, false, 0, 0, true⟩ 50).1.health = max 0 (30 - 50)
    ∧ (Player.take_damage ⟨0, 0, 0, 0, 30, 30, false, 0, 0, true⟩ 50).2 = true := by
  have h := (C3_take_damage ⟨0, 0, 0, 0, 30, 30, false, 0, 0, true⟩ 50).2 rfl
  exact ⟨h.1, h.2.2.2⟩

theorem Player.clampAxis_bounds (c v bound r : ℚ) (h : 2 * r ≤ bound) :
    r ≤ (Player.clampAxis c v bound r).1 ∧ (Player.clampAxis c v bound r).1 ≤ bound - r := by
  unfold Player.clampAxis
  split_ifs with h1 h2 <;> constructor <;> simp <;> linarith

theorem Player.clampAxis_low (c v bound r : ℚ) (h : c < r) :
    Player.clampAxis c v bound r = (r, 0) := by
  simp [Player.clampAxis, h]

theorem Player.clampAxis_high (c v bound r : ℚ) (h2r : 2 * r ≤ bound) (h : c > bound - r) :
    Player.clampAxis c v bound r = (bound - r, 0) := by
  have hnl : ¬c < r := by linarith
  simp [Player.clampAxis, hnl, h]

/-- C10: whenever the screen is at least as wide and tall as the player's
diameter, the position after the movement step of `Player.update` satisfies
`radius ≤ x ≤ screen_width - radius` and `radius ≤ y ≤ screen_height - radius`
for every starting position, velocity and `dt`; and whenever a coordinate was
clamped to a boundary, the corresponding velocity component is zeroed. -/
theorem C10_player_screen_clamp (px py vx vy dt sw sh r : ℚ)
    (hw : 2 * r ≤ sw) (hh : 2 * r ≤ sh) :
    (r ≤ (Player.applyMovement px py vx vy dt sw sh r).1.1
      ∧ (Player.applyMovement px py vx vy dt sw sh r).1.1 ≤ sw - r)
    ∧ (r ≤ (Player.applyMovement px py vx vy dt sw sh r).1.2
      ∧ (Player.applyMovement px py vx vy dt sw sh r).1.2 ≤ sh - r)
    ∧ (px + vx * dt < r →
        (Player.applyMovement px py vx vy dt sw sh r).1.1 = r
        ∧ (Player.applyMovement px py vx vy dt sw sh r).2.1 = 0)
    ∧ (px + vx * dt > sw - r →
        (Player.applyMovement px py vx vy dt sw sh r).1.1 = sw - r
        ∧ (Player.applyMovement px py vx vy dt sw sh r).2.1 = 0)
    ∧ (py + vy * dt < r →
        (Player.applyMovement px py vx vy dt sw sh r).1.2 = r
        ∧ (Player.applyMovement px py vx vy dt sw sh r).2.2 = 0)
    ∧ (py + vy * dt > sh - r →
        (Player.applyMovement px py vx vy dt sw sh r).1.2 = sh - r
        ∧ (Player.applyMovement px py vx vy dt sw sh r).2.2 = 0) := by
  refine ⟨?_, ?_, ?_, ?_, ?_, ?_⟩
  · exact Player.clampAxis_bounds (px + vx * dt) vx sw r hw
  · exact Player.clampAxis_bounds (py + vy * dt) vy sh r hh
  · intro hx
    show (Player.clampAxis (px + vx * dt) vx sw r).1 = r
      ∧ (Player.clampAxis (px + vx * dt) vx sw r).2 = 0
    rw [Player.clampAxis_low (px + vx * dt) vx sw r hx]
    exact ⟨rfl, rfl⟩
  · intro hx
    show (Player.clampAxis (px + vx * dt) vx sw r).1 = sw - r
      ∧ (Player.clampAxis (px + vx * dt) vx sw r).2 = 0
    rw [Player.clampAxis_high (px + vx * dt) vx sw r hw hx]
    exact ⟨rfl, rfl⟩
  · intro hy
    show (Player.clampAxis (py + vy * dt) vy sh r).1 = r
      ∧ (Player.clampAxis (py + vy * dt) vy sh r).2 = 0
    rw [Player.clampAxis_low (py + vy * dt) vy sh r hy]
    exact ⟨rfl, rfl⟩
  · intro hy
    show (Player.clampAxis (py + vy * dt) vy sh r).1 = sh - r
      ∧ (Player.clampAxis (py + vy * dt) vy sh r).2 = 0
    rw [Player.clampAxis_high (py + vy * dt) vy sh r hh hy]
    exact ⟨rfl, rfl⟩

/-- Witness for `C10_player_screen_clamp` at the game's concrete screen
(800×600) and player radius 30, with a leftward velocity that crosses the left
edge: the x-coordinate clamps to 30 and the x-velocity zeroes. -/
theorem C10_player_screen_clamp_witness :
    ((2 : ℚ) * 30 ≤ 800 ∧ (2 : ℚ) * 30 ≤ 600)
    ∧ (Player.applyMovement 40 300 (-100) 0 1 800 600 30).1.1 = 30
    ∧ (Player.applyMovement 40 300 (-100) 0 1 800 600 30).2.1 = 0 := by
  refine ⟨⟨by norm_num, by norm_num⟩, ?_⟩
  have h := C10_player_screen_clamp 40 300 (-100) 0 1 800 600 30 (by norm_num) (by norm_num)
  exact h.2.2.1 (by norm_num)

theorem Player.take_damage_vulnerable (p : Player) (amount : ℤ)
    (h : p.invulnerable = false) :
    (p.take_damage amount).1.health = max 0 (p.health - amount)
    ∧ (p.take_damage amount).1.invulnerable = true
    ∧ (p.take_damage amount).2 = true := by
  refine ⟨?_, by simp [Player.take_damage, h], by simp [Player.take_damage, h]⟩
  simp only [Player.take_damage, h, Bool.false_eq_true, if_false]
  split_ifs with hc <;> omega

theorem processAsteroidHits_invulnerable (p : Player) (hits : List ℤ)
    (h : p.invulnerable = true) :
    processAsteroidHits p hits = (p, false, 0) := by
  induction hits with
  | nil => rfl
  | cons d rest ih =>
    show (if p.invulnerable then processAsteroidHits p rest else _) = (p, false, 0)
    rw [h, if_pos rfl, ih]

/-- C4: in a frame where the player starts non-invulnerable and collides with
a nonempty list of asteroids, exactly one `take_damage` call occurs, the
damage actually applied is the first asteroid's (health becomes
`max 0 (health - d)` for the first damage `d`), and the player leaves the loop
invulnerable, so the remaining overlapping asteroids apply no damage. -/
theorem C4_at_most_one_hit (p : Player) (d : ℤ) (rest : List ℤ)
    (h : p.invulnerable = false) :
    (processAsteroidHits p (d :: rest)).2.2 = 1
    ∧ (processAsteroidHits p (d :: rest)).1.health = max 0 (p.health - d)
    ∧ (processAsteroidHits p (d :: rest)).1.invulnerable = true := by
  obtain ⟨hh, hi, ha⟩ := p.take_damage_vulnerable d h
  have hstep : processAsteroidHits p (d :: rest)
      = if (p.take_damage d).1.health ≤ 0 then ((p.take_damage d).1, true, 1)
        else
          let r := processAsteroidHits (p.take_damage d).1 rest
          (r.1, r.2.1, r.2.2 + 1) := by
    show (if p.invulnerable then _ else _) = _
    rw [h]
    simp only [Bool.false_eq_true, if_false, ha, if_pos]
  rw [hstep]
  split_ifs with hz
  · exact ⟨rfl, hh, hi⟩
  · rw [processAsteroidHits_invulnerable (p.take_damage d).1 rest hi]
    exact ⟨rfl, hh, hi⟩

/-- Witness for `C4_at_most_one_hit`: a vulnerable player at health 100 hit by
three overlapping asteroids of damages 10, 20 and 30 takes exactly one
`take_damage` call and ends at health 90. -/
theorem C4_at_most_one_hit_witness :
    (processAsteroidHits ⟨400, 300, 0, 0, 30, 100, false, 0, 0, true⟩ [10, 20, 30]).2.2 = 1
    ∧ (processAsteroidHits ⟨400, 300, 0, 0, 30, 100, false, 0, 0, true⟩
        [10, 20, 30]).1.health = max 0 (100 - 10) := by
  have h := C4_at_most_one_hit ⟨400, 300, 0, 0, 30, 100, false, 0, 0, true⟩ 10 [20, 30] rfl
  exact ⟨h.1, h.2.1⟩

/-- C5: resolving the boom destroys exactly the asteroids whose distance to
the center is below `explosion_radius + asteroid.radius` (the survivors are
exactly the filtered others, in order), and adds the 50-point bonus to the
score once per destroyed asteroid; in particular, on the 800×600 screen with
the boom centered at (400, 300), 5 asteroids inside and 2 outside leave
exactly the 2 outside alive and raise the score from 0 to 5 × 50 = 250. -/
theorem C5_boom_resolution (center : ℚ × ℚ) (radius score : ℚ) (asts : List AsteroidB) :
    ((resolveBoom center radius asts score).1
        = asts.filter (fun a => !boomHit center radius a)
      ∧ (resolveBoom center radius asts score).2.2 = asts.countP (boomHit center radius)
      ∧ (resolveBoom center radius asts score).2.1
        = score + 50 * asts.countP (boomHit center radius))
    ∧ (resolveBoom (400, 300) (boomExplosionRadius 800 600)
          (asteroidsInside ++ asteroidsOutside) 0
        = (asteroidsOutside, 5 * 50, 5)) := by
  constructor
  · induction asts generalizing score with
    | nil => refine ⟨rfl, rfl, by simp [resolveBoom]⟩
    | cons a rest ih =>
      cases hb : boomHit center radius a with
      | true =>
        obtain ⟨ih1, ih2, ih3⟩ := ih (score + 50)
        have hstep : resolveBoom center radius (a :: rest) score
            = ((resolveBoom center radius rest (score + 50)).1,
               (resolveBoom center radius rest (score + 50)).2.1,
               (resolveBoom center radius rest (score + 50)).2.2 + 1) := by
          simp only [resolveBoom, hb, if_true]
        rw [hstep]
        refine ⟨?_, ?_, ?_⟩
        · rw [List.filter_cons_of_neg (by simp [hb])]
          exact ih1
        · rw [List.countP_cons_of_pos _ _ hb]
          exact congrArg (· + 1) ih2
        · rw [ih3, List.countP_cons_of_pos _ _ hb]
          push_cast
          ring
      | false =>
        obtain ⟨ih1, ih2, ih3⟩ := ih score
        have hstep : resolveBoom center radius (a :: rest) score
            = (a :: (resolveBoom center radius rest score).1,
               (resolveBoom center radius rest score).2.1,
               (resolveBoom center radius rest score).2.2) := by
          simp only [resolveBoom, hb, Bool.false_eq_true, if_false]
        rw [hstep]
        refine ⟨?_, ?_, ?_⟩
        · rw [List.filter_cons_of_pos (by simp [hb])]
          exact congrArg (a :: ·) ih1
        · rw [List.countP_cons_of_neg _ _ (by simp [hb])]
          exact ih2
        · rw [ih3, List.countP_cons_of_neg _ _ (by simp [hb])]
  · norm_num [resolveBoom, boomHit, distSq, boomExplosionRadius,
      POWERUP_BOOM_EFFECT_RADIUS_FACTOR, asteroidsInside, asteroidsOutside]

/-- C8: (a) flag-setting — in the collision loop (game_state.py lines
381–383), whenever the player starts the frame vulnerable and the first
asteroid's applied damage leaves health at 0, `transition_out` is set; and
(b) freeze — in every frame that starts with `transition_out` set, whatever
the rest of the update method would do, `GameState.update` changes only the
transition bookkeeping: score, asteroids, power-ups, player, spawn timers and
boom state are untouched, the flag stays set, the timer advances by `dt`, and
the `STATE_GAME_OVER` signal is returned exactly when the advanced timer has
reached `FADE_DURATION`. -/
theorem C8_transition_freeze :
    (∀ (p : Player) (d : ℤ) (hits : List ℤ), p.invulnerable = false →
        (p.take_damage d).1.health ≤ 0 →
        (processAsteroidHits p (d :: hits)).2.1 = true)
    ∧ (∀ (gs : GameState) (dt : ℚ) (rest : GameState → ℚ → GameState × Option ℕ),
        gs.transition_out = true →
        (gs.update dt rest).1.score = gs.score
        ∧ (gs.update dt rest).1.asteroids = gs.asteroids
        ∧ (gs.update dt rest).1.powerups = gs.powerups
        ∧ (gs.update dt rest).1.player = gs.player
        ∧ (gs.update dt rest).1.asteroid_spawn_timer = gs.asteroid_spawn_timer
        ∧ (gs.update dt rest).1.next_spawn_interval = gs.next_spawn_interval
        ∧ (gs.update dt rest).1.powerup_spawn_timer = gs.powerup_spawn_timer
        ∧ (gs.update dt rest).1.next_powerup_spawn_interval = gs.next_powerup_spawn_interval
        ∧ (gs.update dt rest).1.boom_effect_active = gs.boom_effect_active
        ∧ (gs.update dt rest).1.boom_center = gs.boom_center
        ∧ (gs.update dt rest).1.boom_flash_timer = gs.boom_flash_timer
        ∧ (gs.update dt rest).1.transition_out = true
        ∧ (gs.update dt rest).1.transition_timer = gs.transition_timer + dt
        ∧ ((gs.update dt rest).2 = some STATE_GAME_OVER
            ↔ FADE_DURATION ≤ gs.transition_timer + dt)
        ∧ ((gs.update dt rest).2 = none ↔ gs.transition_timer + dt < FADE_DURATION)) := by
  constructor
  · intro p d hits hinv hh0
    have ha := (p.take_damage_vulnerable d hinv).2.2
    have hstep : processAsteroidHits p (d :: hits)
        = if (p.take_damage d).1.health ≤ 0 then ((p.take_damage d).1, true, 1)
          else
            let r := processAsteroidHits (p.take_damage d).1 hits
            (r.1, r.2.1, r.2.2 + 1) := by
      show (if p.invulnerable then _ else _) = _
      rw [hinv]
      simp only [Bool.false_eq_true, if_false, ha, if_pos]
    rw [hstep, if_pos hh0]
  · intro gs dt rest h
    have hu : gs.update dt rest = gs.updateTransition dt := by
      simp [GameState.update, h]
    rw [hu]
    unfold GameState.updateTransition
    dsimp only
    split_ifs with ht
    · exact ⟨rfl, rfl, rfl, rfl, rfl, rfl, rfl, rfl, rfl, rfl, rfl, h, rfl,
        iff_of_true rfl ht, iff_of_false (by simp) (not_lt.mpr ht)⟩
    · exact ⟨rfl, rfl, rfl, rfl, rfl, rfl, rfl, rfl, rfl, rfl, rfl, h, rfl,
        iff_of_false (by simp) ht, iff_of_true rfl (lt_of_not_ge ht)⟩

/-- Witness for `C8_transition_freeze`: a vulnerable player at health 30 hit
for 50 makes the collision loop set the transition-out flag; and a
transitioning state with timer 1/2 advanced by another 1/2 keeps its score
and returns the game-over signal, since 1/2 + 1/2 reaches
`FADE_DURATION` = 1. -/
theorem C8_transition_freeze_witness :
    (processAsteroidHits ⟨200, 150, 0, 0, 30, 30, false, 0, 0, true⟩ [50, 20]).2.1 = true
    ∧ (GameState.update
        ⟨true, 1/2, 127, 345, [⟨10, 10, 5⟩], [], ⟨0, 0, 0, 0, 30, 0, false, 0, 0, true⟩,
          0, 2, 0, 5, false, none, 0⟩ (1/2) (fun gs _ => (gs, none))).1.score = 345
    ∧ (GameState.update
        ⟨true, 1/2, 127, 345, [⟨10, 10, 5⟩], [], ⟨0, 0, 0, 0, 30, 0, false, 0, 0, true⟩,
          0, 2, 0, 5, false, none, 0⟩ (1/2) (fun gs _ => (gs, none))).2
      = some STATE_GAME_OVER := by
  have hflag := C8_transition_freeze.1 ⟨200, 150, 0, 0, 30, 30, false, 0, 0, true⟩ 50 [20]
    rfl (by decide)
  have h := C8_transition_freeze.2
    ⟨true, 1/2, 127, 345, [⟨10, 10, 5⟩], [], ⟨0, 0, 0, 0, 30, 0, false, 0, 0, true⟩,
      0, 2, 0, 5, false, none, 0⟩ (1/2) (fun gs _ => (gs, none)) rfl
  refine ⟨hflag, h.1, ?_⟩
  have hsig := h.2.2.2.2.2.2.2.2.2.2.2.2.2.1
  rw [hsig]
  norm_num [FADE_DURATION]

theorem wrcLoop_eq_find {K : Type} (u : ℚ) (cum : ℚ) (l : List (K × ℚ)) :
    wrcLoop u cum l = ((cumTotals cum l).find? (fun kc => decide (u ≤ kc.2))).map Prod.fst := by
  induction l generalizing cum with
  | nil => rfl
  | cons kw rest ih =>
    show (if u ≤ cum + kw.2 then some kw.1 else wrcLoop u (cum + kw.2) rest) = _
    rw [cumTotals, List.find?_cons]
    by_cases hc : u ≤ cum + kw.2
    · simp [hc]
    · have hd : (fun kc : K × ℚ => decide (u ≤ kc.2)) (kw.1, cum + kw.2) = false := by
        simp [hc]
      rw [if_neg hc]
      simp only [hd]
      exact ih (cum + kw.2)

theorem wrcLoop_isSome {K : Type} (u : ℚ) (cum : ℚ) (l : List (K × ℚ))
    (hne : l ≠ []) (hu : u ≤ cum + (l.map Prod.snd).sum) :
    (wrcLoop u cum l).isSome = true := by
  induction l generalizing cum with
  | nil => exact absurd rfl hne
  | cons kw rest ih =>
    show (if u ≤ cum + kw.2 then some kw.1 else wrcLoop u (cum + kw.2) rest).isSome = true
    by_cases hc : u ≤ cum + kw.2
    · simp [hc]
    · rw [if_neg hc]
      cases rest with
      | nil =>
        exfalso
        apply hc
        simpa using hu
      | cons b rest2 =>
        apply ih
        · simp
        · simp only [List.map_cons, List.sum_cons] at hu ⊢
          linarith

/-- C6: for nonnegative weights and a drawn value `u` within
`[0, sum(weights)]`, `weighted_random_choice` returns exactly the first key in
iteration order whose cumulative weight total is ≥ u (the spec-worded
`specFirstCumGe`), and it returns an actual key whenever the mapping is
nonempty; in the degenerate cases it returns `None` for the empty mapping and
the first key when all weights are zero (in which case `u` is drawn from
`[0, 0]`), without crashing. -/
theorem C6_weighted_random_choice {K : Type} (l : List (K × ℚ)) (u : ℚ)
    (hw : ∀ kw ∈ l, 0 ≤ kw.2) (_h0 : 0 ≤ u) (hu : u ≤ (l.map Prod.snd).sum) :
    weighted_random_choice l u = specFirstCumGe l u
    ∧ (l ≠ [] → (weighted_random_choice l u).isSome = true)
    ∧ (l = [] → weighted_random_choice l u = none)
    ∧ ((∀ kw ∈ l, kw.2 = 0) → weighted_random_choice l 0 = l.head?.map Prod.fst) := by
  have key : l ≠ [] → ∃ k, wrcLoop u 0 l = some k := by
    intro hne
    have hs := wrcLoop_isSome u 0 l hne (by simpa using hu)
    cases hl : wrcLoop u 0 l with
    | none => rw [hl] at hs; simp at hs
    | some k => exact ⟨k, rfl⟩
  refine ⟨?_, ?_, ?_, ?_⟩
  · cases l with
    | nil => rfl
    | cons kw rest =>
      obtain ⟨k, hk⟩ := key (by simp)
      unfold weighted_random_choice specFirstCumGe
      rw [hk, ← wrcLoop_eq_find, hk]
  · intro hne
    obtain ⟨k, hk⟩ := key hne
    unfold weighted_random_choice
    rw [hk]
    rfl
  · intro he
    subst he
    rfl
  · intro hz
    cases l with
    | nil => rfl
    | cons kw rest =>
      have hz0 : kw.2 = 0 := hz kw (List.mem_cons_self kw rest)
      have hloop : wrcLoop (0 : ℚ) 0 (kw :: rest) = some kw.1 := by
        show (if (0 : ℚ) ≤ 0 + kw.2 then some kw.1 else _) = some kw.1
        rw [hz0, if_pos (by norm_num)]
      unfold weighted_random_choice
      rw [hloop]
      rfl

/-- Witness for `C6_weighted_random_choice` on the mapping
`{A: 1, B: 3}` with drawn value 2: the cumulative totals are 1 and 4, so the
call returns B, the first key whose cumulative total is ≥ 2. -/
theorem C6_weighted_random_choice_witness :
    weighted_random_choice [(0, (1 : ℚ)), (1, 3)] 2
        = specFirstCumGe [(0, (1 : ℚ)), (1, 3)] 2
    ∧ (weighted_random_choice [(0, (1 : ℚ)), (1, 3)] 2).isSome = true := by
  have h := C6_weighted_random_choice (K := ℕ) [(0, 1), (1, 3)] 2
    (by intro kw hkw
        rcases List.mem_cons.mp hkw with h1 | h1
        · rw [h1]; norm_num
        · rcases List.mem_cons.mp h1 with h2 | h2
          · rw [h2]; norm_num
          · simp at h2)
    (by norm_num)
    (by norm_num [List.map_cons, List.sum_cons, List.sum_nil, List.map_nil])
  exact ⟨h.1, h.2.1 (by simp)⟩

theorem GameOverState.updateAlpha_preserves (s : GameOverState) (dt : ℚ) :
    (s.updateAlpha dt).allow_transition = s.allow_transition
    ∧ (s.updateAlpha dt).delay_timer = s.delay_timer
    ∧ (s.updateAlpha dt).transition_requested = s.transition_requested := by
  unfold GameOverState.updateAlpha
  dsimp only
  split_ifs <;> exact ⟨rfl, rfl, rfl⟩

theorem GameOverState.updateDelay_req (s : GameOverState) (dt : ℚ) :
    (s.updateDelay dt).transition_requested = s.transition_requested := by
  unfold GameOverState.updateDelay
  dsimp only
  split_ifs <;> rfl

theorem GameOverState.update_of_not_req (s : GameOverState) (dt : ℚ)
    (h : s.transition_requested = false) :
    s.update dt = ((s.updateDelay dt).updateAlpha dt, none) := by
  unfold GameOverState.update
  dsimp only
  rw [((s.updateDelay dt).updateAlpha_preserves dt).2.2, s.updateDelay_req dt, h]
  simp

theorem GameOverState.update_allow_eq (s : GameOverState) (dt : ℚ) :
    (s.update dt).1.allow_transition = (s.updateDelay dt).allow_transition := by
  unfold GameOverState.update
  dsimp only
  rw [← ((s.updateDelay dt).updateAlpha_preserves dt).1]
  split_ifs <;> rfl

theorem GameOverState.updateDelay_allow_true (s : GameOverState) (dt : ℚ)
    (h : s.allow_transition = true) :
    s.updateDelay dt = s := by
  unfold GameOverState.updateDelay
  rw [h]
  simp

theorem GameOverState.updateDelay_below (s : GameOverState) (dt : ℚ)
    (h : s.allow_transition = false) (hlt : s.delay_timer + dt < 1) :
    (s.updateDelay dt).allow_transition = false
    ∧ (s.updateDelay dt).delay_timer = s.delay_timer + dt := by
  unfold GameOverState.updateDelay
  rw [h]
  dsimp only
  rw [if_pos rfl, if_neg (by rw [GAME_OVER_DELAY_THRESHOLD]; exact not_le.mpr hlt)]
  exact ⟨rfl, rfl⟩

theorem GameOverState.updateDelay_reached (s : GameOverState) (dt : ℚ)
    (h : s.allow_transition = false) (hge : 1 ≤ s.delay_timer + dt) :
    (s.updateDelay dt).allow_transition = true := by
  unfold GameOverState.updateDelay
  rw [h]
  dsimp only
  rw [if_pos rfl, if_pos (by rw [GAME_OVER_DELAY_THRESHOLD]; exact hge)]

theorem GameOverState.handle_event_blocked (s : GameOverState) (e : GOEvent)
    (h : s.allow_transition = false) :
    s.handle_event e = (s, none) := by
  unfold GameOverState.handle_event
  rw [h]
  simp

theorem GameOverState.handle_event_input (s : GameOverState) (e : GOEvent)
    (h : s.allow_transition = true) (hi : e.isInput = true) :
    (s.handle_event e).2 = some STATE_MENU := by
  unfold GameOverState.handle_event
  rw [h, hi]
  simp

theorem GameOverState.runFrames_allow_mono (dts : List ℚ) :
    ∀ s : GameOverState, s.allow_transition = true →
      (s.runFrames dts).allow_transition = true := by
  induction dts with
  | nil => exact fun s h => h
  | cons dt rest ih =>
    intro s h
    show (((s.update dt).1).runFrames rest).allow_transition = true
    apply ih
    rw [s.update_allow_eq dt, s.updateDelay_allow_true dt h]
    exact h

theorem GameOverState.runFrames_allow (dts : List ℚ) :
    ∀ s : GameOverState, s.allow_transition = false →
      (∀ d ∈ dts, 0 ≤ d) → 1 ≤ s.delay_timer + dts.sum → s.delay_timer < 1 →
      (s.runFrames dts).allow_transition = true := by
  induction dts with
  | nil =>
    intro s _ _ hsum hlt
    rw [List.sum_nil, add_zero] at hsum
    exact absurd hsum (not_le.mpr hlt)
  | cons dt rest ih =>
    intro s hall hnn hsum hlt
    show (((s.update dt).1).runFrames rest).allow_transition = true
    by_cases h1 : 1 ≤ s.delay_timer + dt
    · apply GameOverState.runFrames_allow_mono
      rw [s.update_allow_eq dt]
      exact s.updateDelay_reached dt hall h1
    · have hlt1 : s.delay_timer + dt < 1 := lt_of_not_ge h1
      obtain ⟨ha, ht⟩ := s.updateDelay_below dt hall hlt1
      have hreqfree : ((s.update dt).1).allow_transition = false := by
        rw [s.update_allow_eq dt]
        exact ha
      have htimer : ((s.update dt).1).delay_timer = s.delay_timer + dt := by
        unfold GameOverState.update
        dsimp only
        rw [← ht]
        have hp := ((s.updateDelay dt).updateAlpha_preserves dt).2.1
        split_ifs <;> exact hp
      apply ih
      · exact hreqfree
      · exact fun d hd => hnn d (List.mem_cons_of_mem dt hd)
      · rw [htimer]
        rw [List.sum_cons] at hsum
        linarith
      · rw [htimer]
        exact hlt1

theorem GameOverState.noSignalRun_aux (steps : List GOStep) :
    ∀ s : GameOverState, s.allow_transition = false → s.transition_requested = false →
      (∀ st ∈ steps, 0 ≤ st.dtOf) →
      s.delay_timer + (steps.map GOStep.dtOf).sum < 1 →
      s.noSignalRun steps := by
  induction steps with
  | nil =>
    intro s _ _ _ _
    trivial
  | cons st rest ih =>
    intro s hall hreq hnn hsum
    have hrest_nn : 0 ≤ (rest.map GOStep.dtOf).sum := by
      apply List.sum_nonneg
      intro x hx
      obtain ⟨st2, hst2, hx2⟩ := List.mem_map.mp hx
      rw [← hx2]
      exact hnn st2 (List.mem_cons_of_mem st hst2)
    cases st with
    | ev e =>
      have hres := s.handle_event_blocked e hall
      refine ⟨?_, ?_⟩
      · show (s.handle_event e).2 = none
        rw [hres]
      · show (s.handle_event e).1.noSignalRun rest
        rw [hres]
        apply ih s hall hreq (fun st2 hst => hnn st2 (List.mem_cons_of_mem _ hst))
        rw [List.map_cons, List.sum_cons, GOStep.dtOf] at hsum
        simpa using hsum
    | frame dt =>
      have hdt : 0 ≤ dt := by
        have h := hnn (.frame dt) (List.mem_cons_self _ _)
        simpa [GOStep.dtOf] using h
      rw [List.map_cons, List.sum_cons, GOStep.dtOf] at hsum
      have h1 : s.delay_timer + dt < 1 := by linarith
      have hres := s.update_of_not_req dt hreq
      obtain ⟨ha, ht⟩ := s.updateDelay_below dt hall h1
      obtain ⟨hpa, hpt, hpr⟩ := (s.updateDelay dt).updateAlpha_preserves dt
      refine ⟨?_, ?_⟩
      · show (s.update dt).2 = none
        rw [hres]
      · show (s.update dt).1.noSignalRun rest
        rw [hres]
        apply ih
        · rw [hpa]
          exact ha
        · rw [hpr, s.updateDelay_req dt]
          exact hreq
        · exact fun st2 hst => hnn st2 (List.mem_cons_of_mem _ hst)
        · rw [hpt, ht]
          linarith

/-- C7: entering GameOver re-arms the 1-second input delay; (a) along every
interleaving of frame updates (with nonnegative `dt`) and dispatched events
whose elapsed time stays below 1 second, no step emits any transition signal;
(b) once frames totalling at least 1 second have run, every key, mouse-button
or joystick-button event transitions to `STATE_MENU`; and (c, d) neither
`handle_event` nor `update` can ever emit any signal other than `STATE_MENU`
— no state but Menu is reachable from GameOver. -/
theorem C7_game_over_only_menu (s0 : GameOverState) (score : ℚ) :
    (∀ steps : List GOStep, (∀ st ∈ steps, 0 ≤ st.dtOf) →
        (steps.map GOStep.dtOf).sum < 1 →
        (s0.set_score score).noSignalRun steps)
    ∧ (∀ dts : List ℚ, (∀ d ∈ dts, 0 ≤ d) → 1 ≤ dts.sum →
        ∀ e : GOEvent, e.isInput = true →
          (((s0.set_score score).runFrames dts).handle_event e).2 = some STATE_MENU)
    ∧ (∀ s : GameOverState, ∀ e : GOEvent,
        (s.handle_event e).2 = none ∨ (s.handle_event e).2 = some STATE_MENU)
    ∧ (∀ s : GameOverState, ∀ dt : ℚ,
        (s.update dt).2 = none ∨ (s.update dt).2 = some STATE_MENU) := by
  refine ⟨?_, ?_, ?_, ?_⟩
  · intro steps hnn hsum
    apply GameOverState.noSignalRun_aux steps (s0.set_score score) rfl rfl hnn
    show (0 : ℚ) + _ < 1
    simpa using hsum
  · intro dts hnn hsum e hi
    apply GameOverState.handle_event_input _ e _ hi
    apply GameOverState.runFrames_allow dts (s0.set_score score) rfl hnn
    · show 1 ≤ (0 : ℚ) + dts.sum
      simpa using hsum
    · show (0 : ℚ) < 1
      norm_num
  · intro s e
    unfold GameOverState.handle_event
    split_ifs <;> simp
  · intro s dt
    unfold GameOverState.update
    dsimp only
    split_ifs <;> simp

/-- Witness for `C7_game_over_only_menu`: from a concrete entered GameOver
state, one full 1-second frame followed by a key press transitions to
`STATE_MENU` (= 0). -/
theorem C7_game_over_only_menu_witness :
    ((((⟨0, true, 5, true, 255, -1⟩ : GameOverState).set_score 100).runFrames
        [1]).handle_event GOEvent.keyDown).2 = some STATE_MENU := by
  have h := C7_game_over_only_menu (⟨0, true, 5, true, 255, -1⟩ : GameOverState) 100
  apply h.2.1 [1]
  · intro d hd
    rw [List.mem_singleton.mp hd]
    norm_num
  · rw [List.sum_cons, List.sum_nil]
    norm_num
  · rfl

/-- C9 (code bug): collecting a heal power-up does not heal. For every game
state, activating any of the heal power-up kinds leaves the game state — the
player's health in particular — completely unchanged, contradicting the
claimed clamped health increase (`PowerUp.activate` has no heal branch;
`constants.py` defines no `POWERUP_HEALTH_ID` and no heal entries in
`POWERUP_TYPES`, and `spawn_powerup` passes an `amount` keyword that
`PowerUp.__init__` does not accept). -/
theorem C9_heal_unimplemented (gs : GameState) :
    PowerUp.activate "health_25" gs = gs
    ∧ PowerUp.activate "health_50" gs = gs
    ∧ PowerUp.activate "health_100" gs = gs
    ∧ (PowerUp.activate "health_25" gs).player.health = gs.player.health := by
  refine ⟨?_, ?_, ?_, ?_⟩ <;> simp [PowerUp.activate, POWERUP_BOOM_ID]
